import Mathlib

/-!
Shallow embedding of the consensus-coordination core (`src/herder/Herder.cpp`)
of this repository, together with theorems settling the frozen claims about it.

Modelling conventions:
* XDR opaque values are modelled by the inductive `Herder.Value`: either bytes
  that fail to decode, or an encoded `StellarBallot`.  `xdr_from_opaque` is
  `decodeStellarBallot`.
* `std::function<void(bool)> cb` continuation-passing is modelled by returning
  a `CbOutcome`: either the Boolean with which `cb` was invoked, or `deferred`
  when the function returned without invoking `cb` (recording a continuation).
* Machine integers are modelled as `Nat`; an explicit `% 2^32` is written at
  the one place where a `uint32` multiplication can overflow
  (`DESIRED_BASE_FEE * 2` in `Herder::validateBallot`).
* External collaborators (ledger engine, transaction validity, the hash
  function `sha512_256` over canonical XDR) are parameters collected in
  `HerderEnv`; they are opaque to the Herder code.
* The `TxSetFetcher` (class `ItemFetcher`) is code of this repository that is
  not under `src/`; it is modelled from the spec, see `TxSetFetcher` below.
-/

namespace Herder

/-- Transaction as seen by Herder.cpp: the accessors it uses are
`getFullHash()`, `getSourceID()` and `getSeqNum()`.  Hashes and node ids are
abstracted to `Nat`. -/
structure TransactionFrame where
  fullHash : Nat
  sourceID : Nat
  seqNum : Nat
deriving DecidableEq, Repr

/-- TxSetFrame: a list of transactions plus `mPreviousLedgerHash`
(herder/TxSetFrame.h, used by Herder.cpp). -/
structure TxSetFrame where
  mPreviousLedgerHash : Nat
  mTransactions : List TransactionFrame
deriving DecidableEq, Repr

/-- The StellarBallot value payload `{txSetHash, closeTime, baseFee}`. -/
structure StellarValue where
  txSetHash : Nat
  closeTime : Nat
  baseFee : Nat
deriving DecidableEq, Repr

/-- StellarBallot as decoded from an opaque `Value` (the XDR struct also
carries a node id and signature, which Herder.cpp never reads on these
paths). -/
structure StellarBallot where
  value : StellarValue
deriving DecidableEq, Repr

/-- An opaque XDR `Value`: either bytes that do not decode as a
StellarBallot, or an encoding of one. -/
inductive Value where
  | garbage
  | encoded (b : StellarBallot)
deriving DecidableEq, Repr

/-- `xdr::xdr_from_opaque` specialised to StellarBallot; decode failure is
the `catch (...)` branch. -/
def decodeStellarBallot : Value → Option StellarBallot
  | .garbage => none
  | .encoded b => some b

/-- A default-constructed StellarBallot (XDR default construction zeroes all
fields); `Herder::valueExternalized` keeps going with this value when the
decode throws. -/
def defaultStellarBallot : StellarBallot := ⟨⟨0, 0, 0⟩⟩

/-- FBABallot `{counter, value}`. -/
structure FBABallot where
  counter : Nat
  value : Value
deriving DecidableEq, Repr

/-- FBAEnvelope: Herder.cpp only reads `slotIndex` on the modelled paths. -/
structure FBAEnvelope where
  slotIndex : Nat
  nodeID : Nat
deriving DecidableEq, Repr

/-- Ledger header snapshot `{ledgerSeq, closeTime, hash}`. -/
structure LedgerHeader where
  ledgerSeq : Nat
  closeTime : Nat
  hash : Nat
deriving DecidableEq, Repr

/-- Application::State as far as Herder.cpp cares: equal to SYNCED_STATE or
not. -/
inductive AppState where
  | synced
  | notSynced
deriving DecidableEq, Repr

/-- What a `std::function<void(bool)> cb` observed during one call: it was
invoked with a Boolean, or the call returned without invoking it (the
validation was deferred behind a missing artifact). -/
inductive CbOutcome where
  | invoked (result : Bool)
  | deferred
deriving DecidableEq, Repr

/-- Association-list lookup, modelling `std::map::find`. -/
def mapLookup {β : Type} : List (Nat × β) → Nat → Option β
  | [], _ => none
  | (k, v) :: rest, h => if k = h then some v else mapLookup rest h

/-- Modelling `m[h].push_back(x)`: appends to the entry at key `h`, creating
the entry if absent (as `std::map::operator[]` does). -/
def mapInsertPush {β : Type} : List (Nat × List β) → Nat → β → List (Nat × List β)
  | [], h, x => [(h, [x])]
  | (k, l) :: rest, h, x =>
      if k = h then (k, l ++ [x]) :: rest else (k, l) :: mapInsertPush rest h x

/-- Modelling `std::map::erase` of key `h` (keys are unique by
construction). -/
def mapErase {β : Type} : List (Nat × β) → Nat → List (Nat × β)
  | [], _ => []
  | (k, v) :: rest, h => if k = h then rest else (k, v) :: mapErase rest h

/-- Modelled from the spec: the TxSet instance of `ItemFetcher`
(overlay/ItemFetcher), which is code of this repository not under `src/`.
Spec 4.1: a content-addressed cache; `fetchItem(hash, askNetwork)` returns a
cached artifact if present, otherwise (if `askNetwork`) issues a broadcast
request and returns absent; `recvItem` stores the artifact and returns true
iff at least one fetch for this hash was outstanding; `stopFetchingAll` and
`clear` are used on ledger rotation. -/
structure TxSetFetcher where
  cache : List (Nat × TxSetFrame)
  fetching : List Nat
deriving DecidableEq, Repr

/-- External collaborators and configuration constants, opaque to
Herder.cpp. -/
structure HerderEnv where
  MAX_TIME_SLIP_SECONDS : Nat
  MAX_FBA_TIMEOUT_SECONDS : Nat
  LEDGER_VALIDITY_BRACKET : Nat
  DESIRED_BASE_FEE : Nat
  /-- `sha512_256` over the canonical serialization of a TxSet
  (`TxSetFrame::getContentsHash`). -/
  contentsHash : TxSetFrame → Nat
  /-- `TxSetFrame::checkValid(app)`: validity of a TxSet against current
  ledger state (external). -/
  checkValid : TxSetFrame → Bool
  /-- `tx->loadAccount(mApp)` (external ledger lookup). -/
  loadAccount : TransactionFrame → Bool
  /-- `tx->getSourceAccount().getSeqNum()` after a successful load. -/
  accountSeqNum : TransactionFrame → Nat
  /-- `tx->getSourceAccount().getBalance()`. -/
  accountBalance : TransactionFrame → Int
  /-- `mApp.getLedgerGateway().getTxFee()`. -/
  txFee : Int
  /-- `tx->checkValid(mApp)` (external transaction validity). -/
  txCheckValid : TransactionFrame → Bool

/-- Modelled from the spec: `ItemFetcher::fetchItem` (spec 4.1). -/
def TxSetFetcher.fetchItem (f : TxSetFetcher) (h : Nat) (askNetwork : Bool) :
    Option TxSetFrame × TxSetFetcher :=
  match mapLookup f.cache h with
  | some t => (some t, f)
  | none => (none, if askNetwork then { f with fetching := h :: f.fetching } else f)

/-- Modelled from the spec: `ItemFetcher::recvItem` (spec 4.1): stores the
artifact, reports whether a fetch for its hash was outstanding, and the
arrival satisfies the outstanding fetch. -/
def TxSetFetcher.recvItem (env : HerderEnv) (f : TxSetFetcher) (t : TxSetFrame) :
    Bool × TxSetFetcher :=
  let h := env.contentsHash t
  (f.fetching.contains h,
   { cache := (h, t) :: f.cache, fetching := f.fetching.filter (fun x => x ≠ h) })

/-- Modelled from the spec: `ItemFetcher::stopFetchingAll` (spec 4.1). -/
def TxSetFetcher.stopFetchingAll (f : TxSetFetcher) : TxSetFetcher :=
  { f with fetching := [] }

/-- Modelled from the spec: `ItemFetcher::clear` (spec 4.1). -/
def TxSetFetcher.clear (_ : TxSetFetcher) : TxSetFetcher :=
  ⟨[], []⟩

/-- The fetcher buffer produced by `recvItem` on the current buffer: the set
cached under its contents hash and its outstanding fetch (if any) cleared. -/
def recvFetcher (env : HerderEnv) (cur : TxSetFetcher) (txSet : TxSetFrame) :
    TxSetFetcher :=
  ⟨(env.contentsHash txSet, txSet) :: cur.cache,
   cur.fetching.filter (fun x => x ≠ env.contentsHash txSet)⟩

/-- A continuation parked in `mTxSetFetches` waiting for a TxSet: the two
`validate` lambdas of Herder.cpp, with their captures (`slotIndex`, the
decoded ballot `b`, and `this`; the `this` capture means mutable Herder state
is read at run time, so it is not stored here). -/
inductive TxSetCont where
  | fromValidateValue (slotIndex : Nat) (b : StellarBallot)
  | fromValidateBallot (slotIndex : Nat) (b : StellarBallot)
deriving DecidableEq, Repr

/-- The Herder state touched by the modelled member functions.  The two
`TxSetFetcher` buffers are `mTxSetFetcher[0]` and `mTxSetFetcher[1]`;
`currentTxSetFetcher` is the index `mCurrentTxSetFetcher` (false = 0). -/
structure HerderState where
  lastClosedLedger : LedgerHeader
  ledgersToWaitToParticipate : Nat
  receivedTransactions : List (List TransactionFrame)
  txSetFetcher0 : TxSetFetcher
  txSetFetcher1 : TxSetFetcher
  currentTxSetFetcher : Bool
  txSetFetches : List (Nat × List TxSetCont)
  futureEnvelopes : List (Nat × List (FBAEnvelope × Nat))
  lastTrigger : Nat
  localValue : Value
deriving DecidableEq, Repr

/-- `mTxSetFetcher[mCurrentTxSetFetcher]`. -/
def currentFetcher (st : HerderState) : TxSetFetcher :=
  if st.currentTxSetFetcher then st.txSetFetcher1 else st.txSetFetcher0

/-- Writes back `mTxSetFetcher[mCurrentTxSetFetcher]`. -/
def setCurrentFetcher (st : HerderState) (f : TxSetFetcher) : HerderState :=
  if st.currentTxSetFetcher then { st with txSetFetcher1 := f }
  else { st with txSetFetcher0 := f }

/-- `mTxSetFetcher[i]`. -/
def fetcherAt (st : HerderState) (i : Bool) : TxSetFetcher :=
  if i then st.txSetFetcher1 else st.txSetFetcher0

/-- Writes back `mTxSetFetcher[i]`. -/
def setFetcherAt (st : HerderState) (i : Bool) (f : TxSetFetcher) : HerderState :=
  if i then { st with txSetFetcher1 := f } else { st with txSetFetcher0 := f }

/-- `mReceivedTransactions[mReceivedTransactions.size() - 1]`, the oldest
age-bucket (Herder.cpp:220). -/
def oldestBucket (st : HerderState) : List TransactionFrame :=
  st.receivedTransactions.getD (st.receivedTransactions.length - 1) []

/-- Running one of the parked `validate` lambdas once the TxSet `t` is in
hand; returns the Boolean passed to `cb`.  The lambdas capture `this`, so
`mLedgersToWaitToParticipate` and `mReceivedTransactions` are read from the
state at run time.
* `validateValue` lambda (Herder.cpp:120-142): `cb(false)` iff fully synced
  and `!txSet->checkValid(mApp)`, else `cb(true)`.
* `validateBallot` lambda (Herder.cpp:217-243): `cb(false)` iff some
  transaction of the oldest age-bucket is missing from the TxSet, else
  `cb(true)`. -/
def runTxSetCont (env : HerderEnv) (st : HerderState) (c : TxSetCont)
    (t : TxSetFrame) : Bool :=
  match c with
  | .fromValidateValue _ _ =>
      !(st.ledgersToWaitToParticipate == 0 && !env.checkValid t)
  | .fromValidateBallot _ _ =>
      (oldestBucket st).all (fun tx => t.mTransactions.contains tx)

/-- `Herder::fetchTxSet` (Herder.cpp:393-398): delegate to the current
fetcher buffer. -/
def fetchTxSet (st : HerderState) (txSetHash : Nat) (askNetwork : Bool) :
    Option TxSetFrame × HerderState :=
  let (r, f) := (currentFetcher st).fetchItem txSetHash askNetwork
  (r, setCurrentFetcher st f)

/-- Tail of `Herder::validateValue` (Herder.cpp:144-152): fetch the TxSet;
on a miss park the `validate` lambda in `mTxSetFetches[txSetHash]` and return
without invoking `cb`; on a hit run it immediately. -/
def valueFetchStage (env : HerderEnv) (st : HerderState) (slotIndex : Nat)
    (b : StellarBallot) : CbOutcome × HerderState :=
  let (ts, st) := fetchTxSet st b.value.txSetHash true
  match ts with
  | none =>
      (.deferred,
       { st with txSetFetches :=
          (mapInsertPush st.txSetFetches b.value.txSetHash
            (.fromValidateValue slotIndex b)) })
  | some t =>
      (.invoked (runTxSetCont env st (.fromValidateValue slotIndex b) t), st)

/-- `Herder::validateValue` (Herder.cpp:87-153). -/
def validateValue (env : HerderEnv) (st : HerderState) (slotIndex : Nat)
    (value : Value) : CbOutcome × HerderState :=
  match decodeStellarBallot value with
  | none => (.invoked false, st)
  | some b =>
      if st.ledgersToWaitToParticipate == 0 then
        if st.lastClosedLedger.ledgerSeq + 1 ≠ slotIndex then
          (.invoked false, st)
        else if b.value.closeTime ≤ st.lastClosedLedger.closeTime then
          (.invoked false, st)
        else valueFetchStage env st slotIndex b
      else valueFetchStage env st slotIndex b

/-- The loop of Herder.cpp:195-199:
`for (i = 0; i < ballot.counter; i++) sumTimeouts += min(MAX_FBA_TIMEOUT_SECONDS, (int)pow(2.0, i))`.
The cast `(int)pow(2.0, i)` is exactly `2^i` for the iteration counts that
arise (`i ≤ 30`); we model the ideal value. -/
def sumTimeouts (M : Nat) : Nat → Nat
  | 0 => 0
  | k + 1 => sumTimeouts M k + min M (2 ^ k)

/-- Herder.cpp:207: `b.value.baseFee < DESIRED_BASE_FEE * .5`.  The C++
comparison promotes both operands to `double`; a `uint32` value and
`D * 0.5` are exactly representable there, so the test is exactly
`2 * baseFee < D`. -/
def baseFeeTooLow (baseFee D : Nat) : Bool :=
  decide (2 * baseFee < D)

/-- Herder.cpp:211: `b.value.baseFee > DESIRED_BASE_FEE * 2`, a `uint32`
comparison; the multiplication wraps modulo `2^32`. -/
def baseFeeTooHigh (baseFee D : Nat) : Bool :=
  decide (baseFee > (D * 2) % (2 ^ 32))

/-- The two base-fee tests of Herder.cpp:206-214 combined: each invokes
`cb(false)` and returns, so the check as a whole rejects iff either test
fires. -/
def baseFeeOutOfRange (baseFee D : Nat) : Bool :=
  baseFeeTooLow baseFee D || baseFeeTooHigh baseFee D

/-- Tail of `Herder::validateBallot` (Herder.cpp:245-253): fetch the TxSet;
park the `validate` lambda on a miss, run it immediately on a hit. -/
def ballotFetchStage (env : HerderEnv) (st : HerderState) (slotIndex : Nat)
    (b : StellarBallot) : CbOutcome × HerderState :=
  let (ts, st) := fetchTxSet st b.value.txSetHash true
  match ts with
  | none =>
      (.deferred,
       { st with txSetFetches :=
          (mapInsertPush st.txSetFetches b.value.txSetHash
            (.fromValidateBallot slotIndex b)) })
  | some t =>
      (.invoked (runTxSetCont env st (.fromValidateBallot slotIndex b) t), st)

/-- `Herder::validateBallot` (Herder.cpp:167-254).  `timeNow` is
`VirtualClock::pointToTimeT(mApp.getClock().now())`; `mLastTrigger` (in
seconds) is the `lastTrigger` field of the state. -/
def validateBallot (env : HerderEnv) (st : HerderState) (timeNow : Nat)
    (slotIndex : Nat) (ballot : FBABallot) : CbOutcome × HerderState :=
  match decodeStellarBallot ballot.value with
  | none => (.invoked false, st)
  | some b =>
      if timeNow + env.MAX_TIME_SLIP_SECONDS < b.value.closeTime then
        (.invoked false, st)
      else if timeNow + env.MAX_TIME_SLIP_SECONDS <
          st.lastTrigger + sumTimeouts env.MAX_FBA_TIMEOUT_SECONDS ballot.counter then
        (.invoked false, st)
      else if baseFeeTooLow b.value.baseFee env.DESIRED_BASE_FEE then
        (.invoked false, st)
      else if baseFeeTooHigh b.value.baseFee env.DESIRED_BASE_FEE then
        (.invoked false, st)
      else ballotFetchStage env st slotIndex b

/-- `Herder::recvTransaction` (Herder.cpp:473-523).  Returns the C++ return
value and the new state. -/
def recvTransaction (env : HerderEnv) (st : HerderState)
    (tx : TransactionFrame) : Bool × HerderState :=
  if st.receivedTransactions.any
      (fun l => l.any (fun old => old.fullHash == tx.fullHash)) then
    (false, st)
  else
    let numOthers :=
      (st.receivedTransactions.map
        (fun l => l.countP (fun old => old.sourceID == tx.sourceID))).sum
    if !env.loadAccount tx then (false, st)
    else if tx.seqNum < env.accountSeqNum tx + 1 then (false, st)
    else if env.accountBalance tx < (numOthers + 1) * env.txFee then (false, st)
    else if !env.txCheckValid tx then (false, st)
    else
      (true,
       { st with receivedTransactions :=
          (st.receivedTransactions.set 0
            (st.receivedTransactions.getD 0 [] ++ [tx])) })

/-- The loop `for (auto tx : txSet->mTransactions) recvTransaction(tx);` of
`Herder::recvTxSet` (Herder.cpp:406-409). -/
def recvAllTxs (env : HerderEnv) (st : HerderState)
    (txs : List TransactionFrame) : HerderState :=
  txs.foldl (fun s tx => (recvTransaction env s tx).2) st

/-- `Herder::recvTxSet` (Herder.cpp:400-422).  Returns the list of Booleans
passed to the `cb`s of the continuations that were run (one entry per parked
continuation, in registration order) and the new state. -/
def recvTxSet (env : HerderEnv) (st : HerderState) (txSet : TxSetFrame) :
    List Bool × HerderState :=
  let (waiting, f) := (currentFetcher st).recvItem env txSet
  let st1 := setCurrentFetcher st f
  if waiting then
    let st2 := recvAllTxs env st1 txSet.mTransactions
    match mapLookup st2.txSetFetches (env.contentsHash txSet) with
    | some conts =>
        (conts.map (fun c => runTxSetCont env st2 c txSet),
         { st2 with txSetFetches :=
            (mapErase st2.txSetFetches (env.contentsHash txSet)) })
    | none => ([], st2)
  else ([], st1)

/-- `Herder::recvFBAEnvelope` (Herder.cpp:525-555).  The Boolean records
whether the envelope was handed to the slot-machine (`receiveEnvelope`)
during this call; `cbId` stands for the opaque result callback stored next
to the envelope.  Note the source falls through to `receiveEnvelope` even
after buffering a future envelope — there is no early return after the
`push_back`. -/
def recvFBAEnvelope (env : HerderEnv) (st : HerderState)
    (envelope : FBAEnvelope) (cbId : Nat) : Bool × HerderState :=
  if st.ledgersToWaitToParticipate == 0 then
    let seq := st.lastClosedLedger.ledgerSeq
    let minLedgerSeq :=
      if seq < env.LEDGER_VALIDITY_BRACKET then 0
      else seq - env.LEDGER_VALIDITY_BRACKET
    let maxLedgerSeq := seq + env.LEDGER_VALIDITY_BRACKET
    if envelope.slotIndex > maxLedgerSeq ∨ envelope.slotIndex < minLedgerSeq then
      (false, st)
    else if envelope.slotIndex > seq + 1 then
      (true,
       { st with futureEnvelopes :=
          (mapInsertPush st.futureEnvelopes envelope.slotIndex (envelope, cbId)) })
    else (true, st)
  else (true, st)

/-- `Herder::ledgerClosed` (Herder.cpp:557-602).  The body starts with
`// TODO(spolu): No infinite loop for now.` followed by `return;`, so the
whole remainder of the function is dead code and the call has no effect on
the state. -/
def ledgerClosed (st : HerderState) (ledger : LedgerHeader)
    (appState : AppState) : HerderState :=
  st

/-- The dead code of `Herder::ledgerClosed` below the early `return`
(Herder.cpp:563-601), modelled as if it were reachable: it stores the new
header and then, under the comment `// We start skipping ledgers only after
we're in SYNCED_STATE`, decrements the counter when
`mLedgersToWaitToParticipate > 0 && mApp.getState() != SYNCED_STATE` — note
the `!=`.  The rest of the body only re-arms the trigger timer, which is
outside the modelled state. -/
def ledgerClosedDeadCode (st : HerderState) (ledger : LedgerHeader)
    (appState : AppState) : HerderState :=
  let st := { st with lastClosedLedger := ledger }
  if 0 < st.ledgersToWaitToParticipate ∧ appState ≠ .synced then
    { st with ledgersToWaitToParticipate := st.ledgersToWaitToParticipate - 1 }
  else st

/-- `Herder::removeReceivedTx` (Herder.cpp:604-623).  The outer loop is
`for (auto list : mReceivedTransactions)`: `list` is a **copy** of each
bucket, so the `erase` mutates the copy and the member buckets are left
untouched — the function has no effect on the state. -/
def removeReceivedTx (buckets : List (List TransactionFrame))
    (dropTx : TransactionFrame) : List (List TransactionFrame) :=
  buckets

/-- One iteration of the bucket-aging loop of `Herder::valueExternalized`
(Herder.cpp:329-336): `mReceivedTransactions[n]` absorbs
`mReceivedTransactions[n-1]`, which is then cleared. -/
def shiftStep (buckets : List (List TransactionFrame)) (n : Nat) :
    List (List TransactionFrame) :=
  (buckets.set n (buckets.getD n [] ++ buckets.getD (n - 1) [])).set (n - 1) []

/-- The bucket-aging loop of Herder.cpp:329-336, running `n` from
`size - 1` down to `1`. -/
def shiftLoop : List (List TransactionFrame) → Nat → List (List TransactionFrame)
  | buckets, 0 => buckets
  | buckets, n + 1 => shiftLoop (shiftStep buckets (n + 1)) n

/-- The whole received-transactions aging pass of `Herder::valueExternalized`
(Herder.cpp:314-336): `removeReceivedTx` for every externalized transaction
(a no-op, see `removeReceivedTx`), then the shift loop. -/
def ageReceivedTransactions (buckets : List (List TransactionFrame))
    (externalized : List TransactionFrame) : List (List TransactionFrame) :=
  shiftLoop (externalized.foldl removeReceivedTx buckets) (buckets.length - 1)

/-- Result of `Herder::valueExternalized`: the new state and the TxSet handed
to `mApp.getLedgerGateway().externalizeValue(...)`, if any. -/
structure ExternalizeResult where
  state : HerderState
  externalized : Option TxSetFrame
deriving DecidableEq, Repr

/-- `Herder::valueExternalized` (Herder.cpp:279-346).  A decode failure only
logs and continues with the default-constructed ballot.  The TxSet lookup is
`fetchTxSet(hash, false)`, i.e. a pure cache probe of the current fetcher
buffer.  In the found branch: stop all fetches of the current buffer, flip
`mCurrentTxSetFetcher`, clear the buffer that has just become current, hand
the set to the ledger, then age the received-transaction buckets.  In the
not-found branch: log an internal error and do nothing else. -/
def valueExternalized (env : HerderEnv) (st : HerderState) (slotIndex : Nat)
    (value : Value) : ExternalizeResult :=
  let b := (decodeStellarBallot value).getD defaultStellarBallot
  match mapLookup (currentFetcher st).cache b.value.txSetHash with
  | some externalizedSet =>
      let st := setCurrentFetcher st (currentFetcher st).stopFetchingAll
      let st := { st with currentTxSetFetcher := !st.currentTxSetFetcher }
      let st := setCurrentFetcher st (currentFetcher st).clear
      let st := { st with receivedTransactions :=
        (ageReceivedTransactions st.receivedTransactions
          externalizedSet.mTransactions) }
      { state := st, externalized := some externalizedSet }
  | none => { state := st, externalized := none }

/-- Result of `Herder::triggerNextLedger`: the new state, the arguments of
the `prepareValue(slotIndex, mLocalValue)` call, and the delivery flags of
the replayed future envelopes (one entry per buffered envelope for the slot,
true when it reached `receiveEnvelope`). -/
structure TriggerResult where
  state : HerderState
  preparedSlot : Nat
  preparedValue : Value
  replayed : List Bool
deriving DecidableEq, Repr

/-- The replay loop of Herder.cpp:680-684:
`for (auto p : mFutureEnvelopes[slotIndex]) recvFBAEnvelope(p.first, p.second);`
threading the state and collecting the delivered-to-slot-machine flags. -/
def replayFutureEnvelopes (env : HerderEnv) (st : HerderState)
    (entries : List (FBAEnvelope × Nat)) : HerderState × List Bool :=
  entries.foldl
    (fun (acc : HerderState × List Bool) p =>
      let (delivered, s) := recvFBAEnvelope env acc.1 p.1 p.2
      (s, acc.2 ++ [delivered]))
    (st, [])

/-- `Herder::triggerNextLedger` (Herder.cpp:625-685).  `now` is
`VirtualClock::pointToTimeT` of the trigger time stored into
`mLastTrigger`. -/
def triggerNextLedger (env : HerderEnv) (st : HerderState) (now : Nat) :
    TriggerResult :=
  let st := { st with lastTrigger := now }
  let proposedSet : TxSetFrame :=
    ⟨st.lastClosedLedger.hash, st.receivedTransactions.flatten⟩
  let (_, st) := fetchTxSet st (env.contentsHash proposedSet) true
  let (_, st) := recvTxSet env st proposedSet
  let slotIndex := st.lastClosedLedger.ledgerSeq + 1
  let nextCloseTime :=
    if now ≤ st.lastClosedLedger.closeTime then st.lastClosedLedger.closeTime + 1
    else now
  let b : StellarBallot :=
    ⟨⟨env.contentsHash proposedSet, nextCloseTime, env.DESIRED_BASE_FEE⟩⟩
  let st := { st with localValue := Value.encoded b }
  let buffered := (mapLookup st.futureEnvelopes slotIndex).getD []
  let (st, replayed) := replayFutureEnvelopes env st buffered
  let st := { st with futureEnvelopes := mapErase st.futureEnvelopes slotIndex }
  { state := st, preparedSlot := slotIndex,
    preparedValue := Value.encoded b, replayed := replayed }

/-! Concrete fixtures used by the witness theorems. -/

/-- A concrete environment: the configuration values suggested by the spec
(slip 60, FBA timeout cap 30, bracket 10, desired base fee 10) and trivial
external collaborators; the hash function is constant 7, which is all the
witnesses need. -/
def testEnv : HerderEnv where
  MAX_TIME_SLIP_SECONDS := 60
  MAX_FBA_TIMEOUT_SECONDS := 30
  LEDGER_VALIDITY_BRACKET := 10
  DESIRED_BASE_FEE := 10
  contentsHash := fun _ => 7
  checkValid := fun _ => true
  loadAccount := fun _ => true
  accountSeqNum := fun _ => 0
  accountBalance := fun _ => 1000000
  txFee := 10
  txCheckValid := fun _ => true

/-- A fetcher buffer with nothing cached and nothing being fetched. -/
def emptyFetcher : TxSetFetcher := ⟨[], []⟩

/-- A concrete synced Herder state: last closed ledger 10, four empty
received-transaction buckets (as allocated by the constructor),
`mLastTrigger` at second 1000. -/
def testState : HerderState where
  lastClosedLedger := ⟨10, 100, 5⟩
  ledgersToWaitToParticipate := 0
  receivedTransactions := [[], [], [], []]
  txSetFetcher0 := emptyFetcher
  txSetFetcher1 := emptyFetcher
  currentTxSetFetcher := false
  txSetFetches := []
  futureEnvelopes := []
  lastTrigger := 1000
  localValue := .garbage

/-- The test state before the sync gate has opened (counter still at its
initial value 3). -/
def waitingState : HerderState :=
  { testState with ledgersToWaitToParticipate := 3 }

/-- A concrete header for the next ledger. -/
def testHeader : LedgerHeader := ⟨11, 200, 6⟩

/-- A ballot with counter 3 for the C3 witness; `Σ(3) = 1 + 2 + 4 = 7`. -/
def counterBallot : FBABallot := ⟨3, .encoded ⟨⟨7, 101, 10⟩⟩⟩

/-- A ballot whose base fee 21 exceeds `2 * DESIRED_BASE_FEE = 20` in the
test environment. -/
def highFeeBallot : FBABallot := ⟨1, .encoded ⟨⟨7, 101, 21⟩⟩⟩

/-- A transaction for the C10 witness. -/
def testTx : TransactionFrame := ⟨100, 1, 1⟩

/-- The test state with `testTx` already sitting in bucket 2. -/
def dupState : HerderState :=
  { testState with receivedTransactions := [[], [], [testTx], []] }

/-- A transaction sitting only in the oldest bucket, for the C5 witness. -/
def oldTx : TransactionFrame := ⟨200, 2, 1⟩

/-- A TxSet containing only `testTx` (so `oldTx` is missing from it). -/
def smallTxSet : TxSetFrame := ⟨5, [testTx]⟩

/-- A state whose current fetcher has `smallTxSet` cached under hash 7 and
whose oldest bucket holds `oldTx`. -/
def cachedState : HerderState :=
  { testState with
      txSetFetcher0 := ⟨[(7, smallTxSet)], []⟩,
      receivedTransactions := [[], [], [], [oldTx]] }

/-! Helper lemmas. -/

/-- The loop of Herder.cpp:195-199 computes exactly
`Σ_{i=0..k-1} min(MAX_FBA_TIMEOUT_SECONDS, 2^i)`. -/
theorem sumTimeouts_eq_sum (M k : Nat) :
    sumTimeouts M k = ∑ i in Finset.range k, min M (2 ^ i) := by
  induction k with
  | zero => rfl
  | succ n ih => rw [sumTimeouts, ih, Finset.sum_range_succ]

/-- Writing the current fetcher back unchanged is a no-op. -/
theorem setCurrentFetcher_self (st : HerderState) :
    setCurrentFetcher st (currentFetcher st) = st := by
  unfold setCurrentFetcher currentFetcher
  split <;> rfl

/-- Reading back the fetcher just written. -/
theorem currentFetcher_setCurrentFetcher (st : HerderState) (f : TxSetFetcher) :
    currentFetcher (setCurrentFetcher st f) = f := by
  cases h : st.currentTxSetFetcher <;> simp [setCurrentFetcher, currentFetcher, h]

/-- `setCurrentFetcher` only touches the fetcher buffers. -/
theorem setCurrentFetcher_frame (st : HerderState) (f : TxSetFetcher) :
    (setCurrentFetcher st f).lastClosedLedger = st.lastClosedLedger ∧
    (setCurrentFetcher st f).ledgersToWaitToParticipate =
      st.ledgersToWaitToParticipate ∧
    (setCurrentFetcher st f).receivedTransactions = st.receivedTransactions ∧
    (setCurrentFetcher st f).currentTxSetFetcher = st.currentTxSetFetcher ∧
    (setCurrentFetcher st f).txSetFetches = st.txSetFetches ∧
    (setCurrentFetcher st f).futureEnvelopes = st.futureEnvelopes ∧
    (setCurrentFetcher st f).lastTrigger = st.lastTrigger ∧
    (setCurrentFetcher st f).localValue = st.localValue := by
  cases h : st.currentTxSetFetcher <;> simp [setCurrentFetcher, h]

/-- `recvTransaction` either leaves the state alone or only appends the
transaction to bucket 0. -/
theorem recvTransaction_shape (env : HerderEnv) (s : HerderState)
    (tx : TransactionFrame) :
    (recvTransaction env s tx).2 = s ∨
    (recvTransaction env s tx).2 =
      { s with receivedTransactions :=
         (s.receivedTransactions.set 0
           (s.receivedTransactions.getD 0 [] ++ [tx])) } := by
  simp only [recvTransaction]
  split_ifs <;> simp

/-- `recvAllTxs` only rewrites the received-transaction buckets. -/
theorem recvAllTxs_shape (env : HerderEnv) (txs : List TransactionFrame) :
    ∀ s : HerderState, ∃ bks, recvAllTxs env s txs =
      { s with receivedTransactions := bks } := by
  induction txs with
  | nil => exact fun s => ⟨s.receivedTransactions, rfl⟩
  | cons t ts ih =>
      intro s
      have hfold : recvAllTxs env s (t :: ts) =
          recvAllTxs env ((recvTransaction env s t).2) ts := rfl
      rcases ih ((recvTransaction env s t).2) with ⟨bks, hb⟩
      rcases recvTransaction_shape env s t with h | h
      · exact ⟨bks, by rw [hfold, hb, h]⟩
      · exact ⟨bks, by rw [hfold, hb, h]⟩

/-- Frame conditions for `recvAllTxs`: everything except the buckets is
preserved. -/
theorem recvAllTxs_frame (env : HerderEnv) (txs : List TransactionFrame)
    (s : HerderState) :
    (recvAllTxs env s txs).lastClosedLedger = s.lastClosedLedger ∧
    (recvAllTxs env s txs).ledgersToWaitToParticipate =
      s.ledgersToWaitToParticipate ∧
    (recvAllTxs env s txs).txSetFetcher0 = s.txSetFetcher0 ∧
    (recvAllTxs env s txs).txSetFetcher1 = s.txSetFetcher1 ∧
    (recvAllTxs env s txs).currentTxSetFetcher = s.currentTxSetFetcher ∧
    (recvAllTxs env s txs).txSetFetches = s.txSetFetches ∧
    (recvAllTxs env s txs).futureEnvelopes = s.futureEnvelopes ∧
    (recvAllTxs env s txs).lastTrigger = s.lastTrigger ∧
    (recvAllTxs env s txs).localValue = s.localValue := by
  rcases recvAllTxs_shape env txs s with ⟨bks, h⟩
  rw [h]
  simp

/-- The two parked lambdas only read the sync counter and the buckets from
the live state. -/
theorem runTxSetCont_congr (env : HerderEnv) (s s' : HerderState)
    (c : TxSetCont) (t : TxSetFrame)
    (h1 : s.ledgersToWaitToParticipate = s'.ledgersToWaitToParticipate)
    (h2 : s.receivedTransactions = s'.receivedTransactions) :
    runTxSetCont env s c t = runTxSetCont env s' c t := by
  cases c <;> simp [runTxSetCont, oldestBucket, h1, h2]

/-- Lookup misses when the key is not among the stored keys. -/
theorem mapLookup_eq_none_of_not_mem {β : Type} (m : List (Nat × β)) (h : Nat)
    (hnm : h ∉ m.map Prod.fst) : mapLookup m h = none := by
  induction m with
  | nil => rfl
  | cons p rest ih =>
      simp only [List.map_cons, List.mem_cons] at hnm
      push_neg at hnm
      simp only [mapLookup]
      rw [if_neg (fun he => hnm.1 he.symm)]
      exact ih hnm.2

/-- With unique keys (the `std::map` invariant), erasing a key makes its
lookup miss. -/
theorem mapLookup_mapErase_self {β : Type} (m : List (Nat × β)) (h : Nat)
    (hnd : (m.map Prod.fst).Nodup) : mapLookup (mapErase m h) h = none := by
  induction m with
  | nil => rfl
  | cons p rest ih =>
      simp only [List.map_cons, List.nodup_cons] at hnd
      simp only [mapErase]
      by_cases he : p.1 = h
      · rw [if_pos he]
        exact mapLookup_eq_none_of_not_mem rest h (he ▸ hnd.1)
      · rw [if_neg he]
        simp only [mapLookup]
        rw [if_neg he]
        exact ih hnd.2

/-- The final state of `Herder::recvTxSet` is the state after the `recvItem`
write-back, with (possibly) new buckets and a new continuation table. -/
theorem recvTxSet_state_cases (env : HerderEnv) (st : HerderState)
    (txSet : TxSetFrame) :
    (recvTxSet env st txSet).2 =
      setCurrentFetcher st (recvFetcher env (currentFetcher st) txSet) ∨
    ∃ bks fets, (recvTxSet env st txSet).2 =
      { setCurrentFetcher st (recvFetcher env (currentFetcher st) txSet) with
          receivedTransactions := bks, txSetFetches := fets } := by
  have hri : TxSetFetcher.recvItem env (currentFetcher st) txSet =
      ((currentFetcher st).fetching.contains (env.contentsHash txSet),
       recvFetcher env (currentFetcher st) txSet) := rfl
  unfold recvTxSet
  simp only [hri]
  rcases recvAllTxs_shape env txSet.mTransactions
    (setCurrentFetcher st (recvFetcher env (currentFetcher st) txSet)) with ⟨bks, hb⟩
  split
  · rw [hb]
    split
    · exact Or.inr ⟨bks, _, rfl⟩
    · exact Or.inr ⟨bks, _, rfl⟩
  · exact Or.inl rfl

/-- What `Herder::recvTxSet` does to the state apart from the continuation
table and the buckets: nothing, and the current fetcher buffer ends up as
`recvFetcher` (the received set cached, its outstanding fetch cleared). -/
theorem recvTxSet_frame (env : HerderEnv) (st : HerderState) (txSet : TxSetFrame) :
    ((recvTxSet env st txSet).2).lastClosedLedger = st.lastClosedLedger ∧
    ((recvTxSet env st txSet).2).ledgersToWaitToParticipate =
      st.ledgersToWaitToParticipate ∧
    ((recvTxSet env st txSet).2).currentTxSetFetcher = st.currentTxSetFetcher ∧
    ((recvTxSet env st txSet).2).futureEnvelopes = st.futureEnvelopes ∧
    ((recvTxSet env st txSet).2).lastTrigger = st.lastTrigger ∧
    ((recvTxSet env st txSet).2).localValue = st.localValue ∧
    currentFetcher ((recvTxSet env st txSet).2) =
      recvFetcher env (currentFetcher st) txSet := by
  have hset := setCurrentFetcher_frame st (recvFetcher env (currentFetcher st) txSet)
  have hcur := currentFetcher_setCurrentFetcher st
    (recvFetcher env (currentFetcher st) txSet)
  rcases recvTxSet_state_cases env st txSet with h | ⟨bks, fets, h⟩ <;>
    rw [h] <;>
    simp_all [currentFetcher]

/-- `recvFBAEnvelope` can only touch the future-envelope buffer. -/
theorem recvFBAEnvelope_localValue (env : HerderEnv) (s : HerderState)
    (e : FBAEnvelope) (cbId : Nat) :
    ((recvFBAEnvelope env s e cbId).2).localValue = s.localValue := by
  simp only [recvFBAEnvelope]
  split_ifs <;> rfl

/-- The replay loop leaves `mLocalValue` alone. -/
theorem replayFutureEnvelopes_localValue (env : HerderEnv)
    (entries : List (FBAEnvelope × Nat)) (st : HerderState) :
    ((replayFutureEnvelopes env st entries).1).localValue = st.localValue := by
  suffices h : ∀ init : HerderState × List Bool,
      ((entries.foldl
        (fun (acc : HerderState × List Bool) p =>
          let (delivered, s) := recvFBAEnvelope env acc.1 p.1 p.2
          (s, acc.2 ++ [delivered])) init).1).localValue = (init.1).localValue by
    exact h (st, [])
  induction entries with
  | nil => intro init; rfl
  | cons p ps ih =>
      intro init
      rw [List.foldl_cons, ih]
      exact recvFBAEnvelope_localValue env init.1 p.1 p.2

/-- The `nextCloseTime` computation of Herder.cpp:655-659 is the max of the
trigger time and `lcl.closeTime + 1`. -/
theorem nextCloseTime_eq_max (now c : Nat) :
    (if now ≤ c then c + 1 else now) = max now (c + 1) := by
  split <;> omega

/-! Claim theorems. -/

/-- Claim C1.  The claim says `ledgerClosed` decrements
`ledgersToWaitToParticipate` exactly when the node is SYNCED.  The code does
neither: `Herder::ledgerClosed` returns on its first statement, so the
counter never changes at all; and even its dead code, contradicting the
comment right above it, decrements exactly when the state is **not**
SYNCED_STATE.  This theorem evaluates the code at the claim's inputs: for
any state with a positive counter, the real function leaves the counter
unchanged for every application state, and the dead code leaves it unchanged
when SYNCED and decrements it when not SYNCED. -/
theorem c1_ledgerClosed_no_sync_decrement (st : HerderState) (l : LedgerHeader)
    (s : AppState) (h : 0 < st.ledgersToWaitToParticipate) :
    ledgerClosed st l s = st ∧
    (ledgerClosedDeadCode st l .synced).ledgersToWaitToParticipate =
      st.ledgersToWaitToParticipate ∧
    (ledgerClosedDeadCode st l .notSynced).ledgersToWaitToParticipate =
      st.ledgersToWaitToParticipate - 1 := by
  refine ⟨rfl, ?_, ?_⟩ <;> simp [ledgerClosedDeadCode, h]

/-- Witness for C1 at the initial counter value 3 and SYNCED state. -/
theorem c1_ledgerClosed_no_sync_decrement_witness :
    0 < waitingState.ledgersToWaitToParticipate ∧
    (ledgerClosed waitingState testHeader .synced = waitingState ∧
     (ledgerClosedDeadCode waitingState testHeader .synced).ledgersToWaitToParticipate =
       waitingState.ledgersToWaitToParticipate ∧
     (ledgerClosedDeadCode waitingState testHeader .notSynced).ledgersToWaitToParticipate =
       waitingState.ledgersToWaitToParticipate - 1) :=
  ⟨by decide,
   c1_ledgerClosed_no_sync_decrement waitingState testHeader .synced (by decide)⟩

/-- Claim C3: the counter-exhaustion guard of `Herder::validateBallot`.
With `Σ(k) = Σ_{i=0..k-1} min(MAX_FBA_TIMEOUT_SECONDS, 2^i)` (first
conjunct: the code loop computes exactly this), for any ballot that decodes
and passes the closeTime check: if
`now + MAX_TIME_SLIP_SECONDS < lastTrigger + Σ(counter)` the guard invokes
`cb(false)`; at the exact boundary
`now + MAX_TIME_SLIP_SECONDS = lastTrigger + Σ(counter)` the ballot passes
the guard (execution reaches the base-fee checks); and one second earlier
(`now + MAX_TIME_SLIP_SECONDS + 1 = lastTrigger + Σ(counter)`) it is
rejected. -/
theorem c3_counter_exhaustion_guard (env : HerderEnv) (st : HerderState)
    (timeNow slotIndex : Nat) (ballot : FBABallot) (b : StellarBallot)
    (hdec : decodeStellarBallot ballot.value = some b)
    (hclose : b.value.closeTime ≤ timeNow + env.MAX_TIME_SLIP_SECONDS) :
    (sumTimeouts env.MAX_FBA_TIMEOUT_SECONDS ballot.counter =
      ∑ i in Finset.range ballot.counter, min env.MAX_FBA_TIMEOUT_SECONDS (2 ^ i)) ∧
    (timeNow + env.MAX_TIME_SLIP_SECONDS <
        st.lastTrigger + sumTimeouts env.MAX_FBA_TIMEOUT_SECONDS ballot.counter →
      validateBallot env st timeNow slotIndex ballot = (.invoked false, st)) ∧
    (timeNow + env.MAX_TIME_SLIP_SECONDS =
        st.lastTrigger + sumTimeouts env.MAX_FBA_TIMEOUT_SECONDS ballot.counter →
      validateBallot env st timeNow slotIndex ballot =
        (if baseFeeTooLow b.value.baseFee env.DESIRED_BASE_FEE then
          (.invoked false, st)
         else if baseFeeTooHigh b.value.baseFee env.DESIRED_BASE_FEE then
          (.invoked false, st)
         else ballotFetchStage env st slotIndex b)) ∧
    (timeNow + env.MAX_TIME_SLIP_SECONDS + 1 =
        st.lastTrigger + sumTimeouts env.MAX_FBA_TIMEOUT_SECONDS ballot.counter →
      validateBallot env st timeNow slotIndex ballot = (.invoked false, st)) := by
  refine ⟨sumTimeouts_eq_sum _ _, ?_, ?_, ?_⟩
  · intro hlt
    simp only [validateBallot, hdec]
    rw [if_neg (by omega), if_pos hlt]
  · intro heq
    simp only [validateBallot, hdec]
    rw [if_neg (by omega), if_neg (by omega)]
  · intro h1
    simp only [validateBallot, hdec]
    rw [if_neg (by omega), if_pos (by omega)]

/-- Witness for C3: with `lastTrigger = 1000`, slip 60 and counter 3
(`Σ = 7`), the boundary time 947 passes the guard (the validation proceeds
and parks behind the missing TxSet), while time 946 — one second less — is
rejected. -/
theorem c3_counter_exhaustion_guard_witness :
    (validateBallot testEnv testState 947 11 counterBallot).1 = .deferred ∧
    validateBallot testEnv testState 946 11 counterBallot =
      (.invoked false, testState) := by
  constructor
  · have h := (c3_counter_exhaustion_guard testEnv testState 947 11 counterBallot
      ⟨⟨7, 101, 10⟩⟩ rfl (by decide)).2.2.1 (by decide)
    rw [h]; decide
  · exact (c3_counter_exhaustion_guard testEnv testState 946 11 counterBallot
      ⟨⟨7, 101, 10⟩⟩ rfl (by decide)).2.1 (by decide)

/-- Claim C8: the base-fee check of `Herder::validateBallot`.  For any
decoded ballot value that has passed the closeTime and counter guards (and
with `2 * DESIRED_BASE_FEE` inside the uint32 range, so the `* 2` does not
wrap): the check invokes `cb(false)` exactly when `baseFee` lies outside
`[0.5 * D, 2 * D]` (for integers: `2 * baseFee < D` or `baseFee > 2 * D`);
if it passes, execution reaches the TxSet fetch stage.  Boundary cases for
`2 ≤ D`: `⌈0.5 * D⌉ = (D + 1) / 2` passes and `⌊0.5 * D⌋ - 1 = D / 2 - 1`
fails. -/
theorem c8_baseFee_range (env : HerderEnv) (st : HerderState)
    (timeNow slotIndex : Nat) (ballot : FBABallot) (b : StellarBallot)
    (hdec : decodeStellarBallot ballot.value = some b)
    (hclose : b.value.closeTime ≤ timeNow + env.MAX_TIME_SLIP_SECONDS)
    (hctr : st.lastTrigger + sumTimeouts env.MAX_FBA_TIMEOUT_SECONDS ballot.counter ≤
      timeNow + env.MAX_TIME_SLIP_SECONDS)
    (hD : env.DESIRED_BASE_FEE * 2 < 2 ^ 32) :
    (baseFeeOutOfRange b.value.baseFee env.DESIRED_BASE_FEE = true →
      validateBallot env st timeNow slotIndex ballot = (.invoked false, st)) ∧
    (baseFeeOutOfRange b.value.baseFee env.DESIRED_BASE_FEE = false →
      validateBallot env st timeNow slotIndex ballot =
        ballotFetchStage env st slotIndex b) ∧
    (baseFeeOutOfRange b.value.baseFee env.DESIRED_BASE_FEE = true ↔
      2 * b.value.baseFee < env.DESIRED_BASE_FEE ∨
      2 * env.DESIRED_BASE_FEE < b.value.baseFee) ∧
    (2 ≤ env.DESIRED_BASE_FEE →
      baseFeeOutOfRange ((env.DESIRED_BASE_FEE + 1) / 2) env.DESIRED_BASE_FEE
        = false ∧
      baseFeeOutOfRange (env.DESIRED_BASE_FEE / 2 - 1) env.DESIRED_BASE_FEE
        = true) := by
  have hmod : (env.DESIRED_BASE_FEE * 2) % (2 ^ 32) = env.DESIRED_BASE_FEE * 2 :=
    Nat.mod_eq_of_lt hD
  refine ⟨?_, ?_, ?_, ?_⟩
  · intro hout
    simp only [validateBallot, hdec]
    rw [if_neg (by omega), if_neg (by omega)]
    simp only [baseFeeOutOfRange, Bool.or_eq_true] at hout
    rcases hout with hlo | hhi
    · rw [if_pos hlo]
    · by_cases hlo : baseFeeTooLow b.value.baseFee env.DESIRED_BASE_FEE
      · rw [if_pos hlo]
      · rw [if_neg hlo, if_pos hhi]
  · intro hin
    simp only [baseFeeOutOfRange, Bool.or_eq_false_iff] at hin
    simp only [validateBallot, hdec]
    rw [if_neg (by omega), if_neg (by omega), if_neg (by simp [hin.1]),
      if_neg (by simp [hin.2])]
  · simp only [baseFeeOutOfRange, baseFeeTooLow, baseFeeTooHigh, hmod,
      Bool.or_eq_true, decide_eq_true_eq]
    omega
  · intro h2
    simp only [baseFeeOutOfRange, baseFeeTooLow, baseFeeTooHigh, hmod,
      Bool.or_eq_false_iff, Bool.or_eq_true, decide_eq_true_eq,
      decide_eq_false_iff_not]
    omega

/-- Witness for C8: with `D = 10`, base fee 21 is rejected by the base-fee
check, `⌈0.5 * D⌉ = 5` passes it and `⌊0.5 * D⌋ - 1 = 4` fails it. -/
theorem c8_baseFee_range_witness :
    validateBallot testEnv testState 1000 11 highFeeBallot =
      (.invoked false, testState) ∧
    baseFeeOutOfRange ((testEnv.DESIRED_BASE_FEE + 1) / 2)
      testEnv.DESIRED_BASE_FEE = false ∧
    baseFeeOutOfRange (testEnv.DESIRED_BASE_FEE / 2 - 1)
      testEnv.DESIRED_BASE_FEE = true := by
  have h := c8_baseFee_range testEnv testState 1000 11 highFeeBallot
    ⟨⟨7, 101, 21⟩⟩ rfl (by decide) (by decide) (by decide)
  exact ⟨h.1 (by decide), h.2.2.2 (by decide)⟩

/-- Claim C4: `Herder::validateValue` invokes `cb(false)` on decode failure;
when fully synced (`ledgersToWaitToParticipate == 0`) it additionally
invokes `cb(false)` when `slotIndex != lcl.seq + 1` or
`closeTime <= lcl.closeTime`; when not fully synced these two checks are
skipped and execution goes straight to the TxSet fetch stage (whose inputs
are only the state and the referenced TxSet hash). -/
theorem c4_validateValue_checks (env : HerderEnv) (st : HerderState)
    (slotIndex : Nat) (value : Value) :
    (decodeStellarBallot value = none →
      validateValue env st slotIndex value = (.invoked false, st)) ∧
    (∀ b, decodeStellarBallot value = some b →
      st.ledgersToWaitToParticipate = 0 →
      (slotIndex ≠ st.lastClosedLedger.ledgerSeq + 1 ∨
       b.value.closeTime ≤ st.lastClosedLedger.closeTime) →
      validateValue env st slotIndex value = (.invoked false, st)) ∧
    (∀ b, decodeStellarBallot value = some b →
      st.ledgersToWaitToParticipate ≠ 0 →
      validateValue env st slotIndex value =
        valueFetchStage env st slotIndex b) := by
  refine ⟨?_, ?_, ?_⟩
  · intro hdec
    simp only [validateValue, hdec]
  · intro b hdec hsync hbad
    simp only [validateValue, hdec, hsync]
    rcases hbad with hslot | htime
    · rw [if_pos (by decide), if_pos (by omega)]
    · rw [if_pos (by decide)]
      by_cases hslot : st.lastClosedLedger.ledgerSeq + 1 ≠ slotIndex
      · rw [if_pos hslot]
      · rw [if_neg hslot, if_pos htime]
  · intro b hdec hsync
    simp only [validateValue, hdec]
    rw [if_neg (by simpa using hsync)]

/-- Witness for C4: a garbage value gets `cb(false)`; a synced node rejects
slot 13 when the next slot is 11; an unsynced node skips the slot check on
the same input and proceeds to the fetch stage. -/
theorem c4_validateValue_checks_witness :
    validateValue testEnv testState 13 .garbage = (.invoked false, testState) ∧
    validateValue testEnv testState 13 (.encoded ⟨⟨7, 101, 10⟩⟩) =
      (.invoked false, testState) ∧
    validateValue testEnv waitingState 13 (.encoded ⟨⟨7, 101, 10⟩⟩) =
      valueFetchStage testEnv waitingState 13 ⟨⟨7, 101, 10⟩⟩ :=
  ⟨(c4_validateValue_checks testEnv testState 13 .garbage).1 rfl,
   (c4_validateValue_checks testEnv testState 13 (.encoded ⟨⟨7, 101, 10⟩⟩)).2.1
     ⟨⟨7, 101, 10⟩⟩ rfl rfl (Or.inl (by decide)),
   (c4_validateValue_checks testEnv waitingState 13 (.encoded ⟨⟨7, 101, 10⟩⟩)).2.2
     ⟨⟨7, 101, 10⟩⟩ rfl (by decide)⟩

/-- Claim C2.  The claim says a future envelope (synced node,
`lcl.seq + 1 < slotIndex <= lcl.seq + LEDGER_VALIDITY_BRACKET`) is buffered
and **not** handed to the slot-machine at receipt time.  The code does
buffer it, but there is no return after the `push_back`
(Herder.cpp:547-551), so the call falls through to
`receiveEnvelope(envelope, cb)` (Herder.cpp:554) and the envelope reaches
the slot-machine at receipt time as well: the result's first component
(delivered-to-slot-machine) is `true`. -/
theorem c2_futureEnvelope_also_delivered (env : HerderEnv) (st : HerderState)
    (e : FBAEnvelope) (cbId : Nat)
    (hsync : st.ledgersToWaitToParticipate = 0)
    (hlow : st.lastClosedLedger.ledgerSeq + 1 < e.slotIndex)
    (hhigh : e.slotIndex ≤ st.lastClosedLedger.ledgerSeq +
      env.LEDGER_VALIDITY_BRACKET) :
    recvFBAEnvelope env st e cbId =
      (true,
       { st with futureEnvelopes :=
          (mapInsertPush st.futureEnvelopes e.slotIndex (e, cbId)) }) := by
  simp only [recvFBAEnvelope, hsync]
  rw [if_pos (by decide), if_neg (by split <;> omega), if_pos (by omega)]

/-- Witness for C2 (the spec's own scenario): `lcl.seq = 10`, an envelope
for slot 12 is buffered into `futureEnvelopes[12]` **and** delivered to the
slot-machine in the same call. -/
theorem c2_futureEnvelope_also_delivered_witness :
    testState.ledgersToWaitToParticipate = 0 ∧
    recvFBAEnvelope testEnv testState ⟨12, 42⟩ 0 =
      (true,
       { testState with futureEnvelopes :=
          (mapInsertPush testState.futureEnvelopes 12 (⟨12, 42⟩, 0)) }) :=
  ⟨rfl, c2_futureEnvelope_also_delivered testEnv testState ⟨12, 42⟩ 0 rfl
    (by decide) (by decide)⟩

/-- Claim C10: `Herder::recvTransaction` returns false and leaves the state
untouched when some bucket already holds a transaction with the same
`fullHash`; and whenever it returns true, the new state differs from the
old only in that `tx` has been appended to bucket 0. -/
theorem c10_recvTransaction (env : HerderEnv) (st : HerderState)
    (tx : TransactionFrame)
    (hdup : ∃ l ∈ st.receivedTransactions, ∃ old ∈ l, old.fullHash = tx.fullHash) :
    recvTransaction env st tx = (false, st) ∧
    ∀ st' tx', (recvTransaction env st' tx').1 = true →
      (recvTransaction env st' tx').2 =
        { st' with receivedTransactions :=
           (st'.receivedTransactions.set 0
             (st'.receivedTransactions.getD 0 [] ++ [tx'])) } := by
  constructor
  · have hany : st.receivedTransactions.any
        (fun l => l.any (fun old => old.fullHash == tx.fullHash)) = true := by
      rcases hdup with ⟨l, hl, old, hold, heq⟩
      simp only [List.any_eq_true, beq_iff_eq]
      exact ⟨l, hl, old, hold, heq⟩
    simp only [recvTransaction, hany]
    rfl
  · intro st' tx' htrue
    simp only [recvTransaction] at htrue ⊢
    split_ifs at htrue ⊢
    rfl

/-- Claim C5: for a ballot that passes the local checks of
`Herder::validateBallot` and whose referenced TxSet `T` is cached,
`cb(true)` is invoked iff every transaction currently in the oldest
age-bucket of the received transactions is contained in `T`, and `cb(false)`
is invoked iff some such transaction is missing from `T`. -/
theorem c5_validateBallot_oldest_bucket (env : HerderEnv) (st : HerderState)
    (timeNow slotIndex : Nat) (ballot : FBABallot) (b : StellarBallot)
    (T : TxSetFrame)
    (hdec : decodeStellarBallot ballot.value = some b)
    (hclose : b.value.closeTime ≤ timeNow + env.MAX_TIME_SLIP_SECONDS)
    (hctr : st.lastTrigger + sumTimeouts env.MAX_FBA_TIMEOUT_SECONDS ballot.counter ≤
      timeNow + env.MAX_TIME_SLIP_SECONDS)
    (hlo : baseFeeTooLow b.value.baseFee env.DESIRED_BASE_FEE = false)
    (hhi : baseFeeTooHigh b.value.baseFee env.DESIRED_BASE_FEE = false)
    (hcache : mapLookup (currentFetcher st).cache b.value.txSetHash = some T) :
    ((validateBallot env st timeNow slotIndex ballot).1 = .invoked true ↔
      ∀ tx ∈ oldestBucket st, tx ∈ T.mTransactions) ∧
    ((validateBallot env st timeNow slotIndex ballot).1 = .invoked false ↔
      ∃ tx ∈ oldestBucket st, tx ∉ T.mTransactions) := by
  have hres : validateBallot env st timeNow slotIndex ballot =
      (.invoked ((oldestBucket st).all (fun tx => T.mTransactions.contains tx)),
       st) := by
    simp only [validateBallot, hdec]
    rw [if_neg (by omega), if_neg (by omega), if_neg (by simp [hlo]),
      if_neg (by simp [hhi])]
    simp only [ballotFetchStage, fetchTxSet, TxSetFetcher.fetchItem, hcache]
    rw [setCurrentFetcher_self]
    rfl
  rw [hres]
  constructor
  · simp [List.all_eq_true]
  · simp [List.all_eq_true]

/-- Witness for C5: with `smallTxSet` (holding only `testTx`) cached and
`oldTx` sitting in the oldest bucket, the ballot referencing `smallTxSet`
gets `cb(false)`. -/
theorem c5_validateBallot_oldest_bucket_witness :
    (validateBallot testEnv cachedState 1000 11 counterBallot).1 =
      .invoked false :=
  (c5_validateBallot_oldest_bucket testEnv cachedState 1000 11 counterBallot
    ⟨⟨7, 101, 10⟩⟩ smallTxSet rfl (by decide) (by decide) (by decide) (by decide)
    (by decide)).2.mpr ⟨oldTx, by decide, by decide⟩

/-- Witness for C10: receiving a transaction whose hash is already in bucket
2 returns false and changes nothing; receiving a fresh valid transaction
returns true and appends it to bucket 0. -/
theorem c10_recvTransaction_witness :
    recvTransaction testEnv dupState testTx = (false, dupState) ∧
    (recvTransaction testEnv testState testTx).2 =
      { testState with receivedTransactions :=
         (testState.receivedTransactions.set 0
           (testState.receivedTransactions.getD 0 [] ++ [testTx])) } := by
  have h := c10_recvTransaction testEnv dupState testTx
    ⟨[testTx], by decide, testTx, by decide, rfl⟩
  exact ⟨h.1, h.2 testState testTx (by decide)⟩

/-- Claim C6: the fetch-then-resume continuation lifecycle.
(1) `validateValue` on a miss records its continuation under the TxSet hash
and returns without invoking `cb`;
(2) `validateBallot` on a miss (with its local checks passed) likewise
records its continuation under the TxSet hash and returns without invoking
`cb`;
(3) on the first `recvTxSet` of a set whose hash has an outstanding fetch,
each recorded continuation runs exactly once — the list of `cb` invocations
equals the recorded continuation list mapped through one run each — and the
entry for that hash is erased (given the `std::map` unique-key invariant);
(4) a second `recvTxSet` of the same set runs no continuation. -/
theorem c6_continuation_lifecycle (env : HerderEnv) (st : HerderState) :
    (∀ slotIndex value b,
      decodeStellarBallot value = some b →
      st.ledgersToWaitToParticipate = 0 →
      slotIndex = st.lastClosedLedger.ledgerSeq + 1 →
      st.lastClosedLedger.closeTime < b.value.closeTime →
      mapLookup (currentFetcher st).cache b.value.txSetHash = none →
      (validateValue env st slotIndex value).1 = .deferred ∧
      ((validateValue env st slotIndex value).2).txSetFetches =
        mapInsertPush st.txSetFetches b.value.txSetHash
          (.fromValidateValue slotIndex b)) ∧
    (∀ slotIndex timeNow ballot b,
      decodeStellarBallot ballot.value = some b →
      b.value.closeTime ≤ timeNow + env.MAX_TIME_SLIP_SECONDS →
      st.lastTrigger + sumTimeouts env.MAX_FBA_TIMEOUT_SECONDS ballot.counter ≤
        timeNow + env.MAX_TIME_SLIP_SECONDS →
      baseFeeTooLow b.value.baseFee env.DESIRED_BASE_FEE = false →
      baseFeeTooHigh b.value.baseFee env.DESIRED_BASE_FEE = false →
      mapLookup (currentFetcher st).cache b.value.txSetHash = none →
      (validateBallot env st timeNow slotIndex ballot).1 = .deferred ∧
      ((validateBallot env st timeNow slotIndex ballot).2).txSetFetches =
        mapInsertPush st.txSetFetches b.value.txSetHash
          (.fromValidateBallot slotIndex b)) ∧
    (∀ txSet conts,
      (currentFetcher st).fetching.contains (env.contentsHash txSet) = true →
      mapLookup st.txSetFetches (env.contentsHash txSet) = some conts →
      (st.txSetFetches.map Prod.fst).Nodup →
      (recvTxSet env st txSet).1 =
        conts.map
          (fun c => runTxSetCont env ((recvTxSet env st txSet).2) c txSet) ∧
      mapLookup ((recvTxSet env st txSet).2).txSetFetches
        (env.contentsHash txSet) = none) ∧
    (∀ txSet, (recvTxSet env ((recvTxSet env st txSet).2) txSet).1 = []) := by
  refine ⟨?_, ?_, ?_, ?_⟩
  · intro slotIndex value b hdec hsync hslot htime hcache
    have hfi : (currentFetcher st).fetchItem b.value.txSetHash true =
        (none, { currentFetcher st with
          fetching := b.value.txSetHash :: (currentFetcher st).fetching }) := by
      simp only [TxSetFetcher.fetchItem, hcache]
      rfl
    have hfr := setCurrentFetcher_frame st
      { currentFetcher st with
          fetching := b.value.txSetHash :: (currentFetcher st).fetching }
    simp only [validateValue, hdec, hsync]
    rw [if_pos (by decide), if_neg (by omega), if_neg (by omega)]
    simp only [valueFetchStage, fetchTxSet, hfi]
    exact ⟨trivial, by rw [hfr.2.2.2.2.1]⟩
  · intro slotIndex timeNow ballot b hdec hclose hctr hlo hhi hcache
    have hfi : (currentFetcher st).fetchItem b.value.txSetHash true =
        (none, { currentFetcher st with
          fetching := b.value.txSetHash :: (currentFetcher st).fetching }) := by
      simp only [TxSetFetcher.fetchItem, hcache]
      rfl
    have hfr := setCurrentFetcher_frame st
      { currentFetcher st with
          fetching := b.value.txSetHash :: (currentFetcher st).fetching }
    simp only [validateBallot, hdec]
    rw [if_neg (by omega), if_neg (by omega), if_neg (by simp [hlo]),
      if_neg (by simp [hhi])]
    simp only [ballotFetchStage, fetchTxSet, hfi]
    exact ⟨trivial, by rw [hfr.2.2.2.2.1]⟩
  · intro txSet conts hw hlook hnd
    have hri : TxSetFetcher.recvItem env (currentFetcher st) txSet =
        ((currentFetcher st).fetching.contains (env.contentsHash txSet),
         recvFetcher env (currentFetcher st) txSet) := rfl
    have hall := recvAllTxs_frame env txSet.mTransactions
      (setCurrentFetcher st (recvFetcher env (currentFetcher st) txSet))
    have hset := setCurrentFetcher_frame st
      (recvFetcher env (currentFetcher st) txSet)
    have hlook2 : mapLookup
        (recvAllTxs env
          (setCurrentFetcher st (recvFetcher env (currentFetcher st) txSet))
          txSet.mTransactions).txSetFetches (env.contentsHash txSet) =
        some conts := by
      rw [hall.2.2.2.2.2.1, hset.2.2.2.2.1]
      exact hlook
    simp only [recvTxSet, hri, hw, if_pos, hlook2]
    constructor
    · refine List.map_congr_left ?_
      intro c _
      exact runTxSetCont_congr env _ _ c txSet rfl rfl
    · rw [hall.2.2.2.2.2.1, hset.2.2.2.2.1]
      exact mapLookup_mapErase_self st.txSetFetches (env.contentsHash txSet) hnd
  · intro txSet
    have key : ∀ s1 : HerderState,
        (currentFetcher s1).fetching.contains (env.contentsHash txSet) = false →
        (recvTxSet env s1 txSet).1 = [] := by
      intro s1 h1
      have hri : TxSetFetcher.recvItem env (currentFetcher s1) txSet =
          (false, recvFetcher env (currentFetcher s1) txSet) := by
        simp only [TxSetFetcher.recvItem, recvFetcher, h1]
      simp [recvTxSet, hri]
    refine key _ ?_
    rw [(recvTxSet_frame env st txSet).2.2.2.2.2.2]
    simp [recvFetcher]

/-- Witness for C6, at the spec's own scenario: a `validateValue` for the
(unknown) TxSet hash 7 defers; a `validateBallot` for the same unknown hash
defers too and records its continuation under hash 7; after the
`validateValue` deferral, the first matching `recvTxSet` fires the one
parked continuation exactly once (with result true); the second matching
`recvTxSet` fires nothing. -/
theorem c6_continuation_lifecycle_witness :
    (validateValue testEnv testState 11 (.encoded ⟨⟨7, 101, 10⟩⟩)).1 =
      .deferred ∧
    (validateBallot testEnv testState 1000 11 counterBallot).1 = .deferred ∧
    ((validateBallot testEnv testState 1000 11 counterBallot).2).txSetFetches =
      mapInsertPush testState.txSetFetches 7
        (.fromValidateBallot 11 ⟨⟨7, 101, 10⟩⟩) ∧
    (recvTxSet testEnv
      (validateValue testEnv testState 11 (.encoded ⟨⟨7, 101, 10⟩⟩)).2
      smallTxSet).1 = [true] ∧
    (recvTxSet testEnv
      (recvTxSet testEnv
        (validateValue testEnv testState 11 (.encoded ⟨⟨7, 101, 10⟩⟩)).2
        smallTxSet).2
      smallTxSet).1 = [] := by
  have h1 := (c6_continuation_lifecycle testEnv testState).1 11
    (.encoded ⟨⟨7, 101, 10⟩⟩) ⟨⟨7, 101, 10⟩⟩ rfl rfl rfl (by decide) rfl
  have hb := (c6_continuation_lifecycle testEnv testState).2.1 11 1000
    counterBallot ⟨⟨7, 101, 10⟩⟩ rfl (by decide) (by decide) (by decide)
    (by decide) rfl
  have h2 := c6_continuation_lifecycle testEnv
    (validateValue testEnv testState 11 (.encoded ⟨⟨7, 101, 10⟩⟩)).2
  have hfire := h2.2.2.1 smallTxSet [.fromValidateValue 11 ⟨⟨7, 101, 10⟩⟩]
    (by decide) (by decide) (by decide)
  refine ⟨h1.1, hb.1, hb.2, ?_, h2.2.2.2 smallTxSet⟩
  rw [hfire.1]
  decide

/-- Counterexample for C7 as stated.  The claim says that on a cached
externalization the buffer that is "other" after the swap is cleared.  At
this concrete input the externalization succeeds (first two conjuncts: the
set is handed to the ledger and the current index flips from 0 to 1, so
buffer 0 is the new "other"), yet buffer 0 still holds its cached TxSet:
the code clears the buffer that became **current**, not the new other
(Herder.cpp:308-309 clear `mTxSetFetcher[mCurrentTxSetFetcher]` after the
flip). -/
theorem c7_counterexample :
    (valueExternalized testEnv cachedState 11
      (.encoded ⟨⟨7, 101, 10⟩⟩)).externalized = some smallTxSet ∧
    ((valueExternalized testEnv cachedState 11
      (.encoded ⟨⟨7, 101, 10⟩⟩)).state).currentTxSetFetcher = true ∧
    (fetcherAt ((valueExternalized testEnv cachedState 11
      (.encoded ⟨⟨7, 101, 10⟩⟩)).state) false).cache ≠ [] := by
  refine ⟨by decide, by decide, by decide⟩

/-- Claim C7, amended: on `valueExternalized` with the referenced TxSet
cached, fetches in the current buffer are stopped, current and other are
swapped, and the buffer that has just become **current** is cleared (the
just-retired buffer is kept as the new "other", to be wiped at the next
externalization); the TxSet is handed to the ledger engine.  If the TxSet
is not cached, an internal error is logged and nothing happens: no buffer
rotation, no `externalizeValue`, buckets unchanged (the state is returned
untouched). -/
theorem c7_valueExternalized_rotation (env : HerderEnv) (st : HerderState)
    (slotIndex : Nat) (value : Value) (b : StellarBallot) (T : TxSetFrame)
    (hdec : decodeStellarBallot value = some b)
    (hcache : mapLookup (currentFetcher st).cache b.value.txSetHash = some T) :
    (valueExternalized env st slotIndex value).externalized = some T ∧
    ((valueExternalized env st slotIndex value).state).currentTxSetFetcher =
      !st.currentTxSetFetcher ∧
    fetcherAt ((valueExternalized env st slotIndex value).state)
      (!st.currentTxSetFetcher) = ⟨[], []⟩ ∧
    fetcherAt ((valueExternalized env st slotIndex value).state)
      st.currentTxSetFetcher = { currentFetcher st with fetching := [] } ∧
    (∀ (st' : HerderState) (v' : Value),
      mapLookup (currentFetcher st').cache
        ((decodeStellarBallot v').getD defaultStellarBallot).value.txSetHash =
        none →
      valueExternalized env st' slotIndex v' = ⟨st', none⟩) := by
  have hmiss_case : ∀ (st' : HerderState) (v' : Value),
      mapLookup (currentFetcher st').cache
        ((decodeStellarBallot v').getD defaultStellarBallot).value.txSetHash =
        none →
      valueExternalized env st' slotIndex v' = ⟨st', none⟩ := by
    intro st' v' hmiss
    simp only [valueExternalized, hmiss]
  cases hc : st.currentTxSetFetcher
  case false =>
    rw [show currentFetcher st = st.txSetFetcher0 from by
      simp [currentFetcher, hc]] at hcache
    refine ⟨?_, ?_, ?_, ?_, hmiss_case⟩ <;>
      simp [valueExternalized, hdec, hcache, setCurrentFetcher, currentFetcher,
        fetcherAt, TxSetFetcher.stopFetchingAll, TxSetFetcher.clear, hc]
  case true =>
    rw [show currentFetcher st = st.txSetFetcher1 from by
      simp [currentFetcher, hc]] at hcache
    refine ⟨?_, ?_, ?_, ?_, hmiss_case⟩ <;>
      simp [valueExternalized, hdec, hcache, setCurrentFetcher, currentFetcher,
        fetcherAt, TxSetFetcher.stopFetchingAll, TxSetFetcher.clear, hc]

/-- Witness for C7 (amended): at the counterexample's input the buffer that
became current (index 1) is indeed the cleared one, and the cached set is
handed to the ledger engine. -/
theorem c7_valueExternalized_rotation_witness :
    (valueExternalized testEnv cachedState 11
      (.encoded ⟨⟨7, 101, 10⟩⟩)).externalized = some smallTxSet ∧
    fetcherAt ((valueExternalized testEnv cachedState 11
      (.encoded ⟨⟨7, 101, 10⟩⟩)).state) true = ⟨[], []⟩ := by
  have h := c7_valueExternalized_rotation testEnv cachedState 11
    (.encoded ⟨⟨7, 101, 10⟩⟩) ⟨⟨7, 101, 10⟩⟩ smallTxSet rfl (by decide)
  exact ⟨h.1, h.2.2.1⟩

/-- Claim C9: every run of `triggerNextLedger` prepares, and stores as
`mLocalValue`, the value whose `txSetHash` is the contents hash of the set
of all received transactions over `lcl.hash`, whose `closeTime` is
`max(trigger time, lcl.closeTime + 1)` and whose `baseFee` is
`DESIRED_BASE_FEE`, and submits it via `prepareValue(lcl.seq + 1, ...)`. -/
theorem c9_triggerNextLedger_value (env : HerderEnv) (st : HerderState)
    (now : Nat) :
    (triggerNextLedger env st now).preparedSlot =
      st.lastClosedLedger.ledgerSeq + 1 ∧
    (triggerNextLedger env st now).preparedValue =
      Value.encoded
        ⟨⟨env.contentsHash
            ⟨st.lastClosedLedger.hash, st.receivedTransactions.flatten⟩,
          max now (st.lastClosedLedger.closeTime + 1),
          env.DESIRED_BASE_FEE⟩⟩ ∧
    ((triggerNextLedger env st now).state).localValue =
      (triggerNextLedger env st now).preparedValue := by
  have hrf := recvTxSet_frame env
    (setCurrentFetcher { st with lastTrigger := now }
      (((currentFetcher { st with lastTrigger := now }).fetchItem
        (env.contentsHash
          ⟨st.lastClosedLedger.hash, st.receivedTransactions.flatten⟩)
        true).2))
    ⟨st.lastClosedLedger.hash, st.receivedTransactions.flatten⟩
  have hsf := setCurrentFetcher_frame { st with lastTrigger := now }
    (((currentFetcher { st with lastTrigger := now }).fetchItem
      (env.contentsHash
        ⟨st.lastClosedLedger.hash, st.receivedTransactions.flatten⟩)
      true).2)
  simp only [triggerNextLedger, fetchTxSet]
  rw [hrf.1, hsf.1]
  refine ⟨rfl, ?_, ?_⟩
  · rw [nextCloseTime_eq_max]
  · rw [replayFutureEnvelopes_localValue]

end Herder
